import Mathlib

/-!
Verification of the rdflib typed-literal term model and the SPARQL plugin
configuration/registration layer (`rdflib/plugins/sparql/__init__.py`,
`test/test_literal/test_literal.py`).

The term model (`rdflib/term.py`) is not part of the provided sources; its
constructions are modelled from the specification (data model of Literals,
the datatype registry of coercion rules, the language-tag grammar, and the
never-raising lexical coercion), with the concrete built-in rules for the
boolean / bounded-integer / string datatypes that the repository's literal
tests exercise.
-/

namespace Rdf

/-- A number written in decimal positional notation: sign, integer part,
and the fractional digit list exactly as written. Python `Decimal` values
round-trip exactly through this notation, and Python floats are modelled
by their shortest decimal representation (`repr`), under which the float
round trip `float(repr(x)) == x` is exact; IEEE rounding itself is not
modelled. -/
structure DecimalRep where
  neg : Bool
  intPart : Nat
  frac : List Nat
  deriving DecidableEq, Repr

/-- The native Python values that the modelled coercion rules produce:
booleans, arbitrary-precision integers, strings, floats and decimals (as
decimal notations), dates, times, datetimes, byte strings, and the two
duck-typed classes `a` and `b` that `TestBindings.testBinding` registers
(each is a plain wrapper around the string field `v`, its only state). -/
inductive PyValue where
  | bool (b : Bool)
  | int (n : Int)
  | str (s : String)
  | double (r : DecimalRep)
  | decimal (r : DecimalRep)
  | date (y mo d : Nat)
  | time (h mi s : Nat)
  | dateTime (y mo d h mi s : Nat)
  | bytes (bs : List Nat)
  | objA (v : String)
  | objB (v : String)
  deriving DecidableEq, Repr

/-- A lexical argument to literal construction: Python `str` or `bytes`
(bytes are decoded as UTF-8 before coercion). -/
inductive PyLex where
  | str (s : String)
  | bytes (s : String)
  deriving DecidableEq, Repr

/-- The decoded lexical form of a `str`-or-`bytes` argument. -/
def PyLex.decode : PyLex → String
  | .str s => s
  | .bytes s => s

/-- A dynamically typed Python object passed as the `lang` argument;
anything other than `str` is invalid. -/
inductive PyObj where
  | str (s : String)
  | dict
  | list
  | int (n : Int)
  | bytes (s : String)
  deriving DecidableEq, Repr

/-- The two kinds of Python exception literal construction can raise. -/
inductive LitError where
  | typeError
  | valueError
  deriving DecidableEq, Repr

/-! ## Decimal integer lexical forms

Models Python's `str`/`int` conversions on decimal integers, which the
built-in numeric coercion rules use as serializer and parser. -/

/-- The numeric value of an ASCII decimal digit, or `none`. -/
def charToDigit? (c : Char) : Option Nat :=
  if c.isDigit then some (c.toNat - 48) else none

/-- Consume decimal digits most-significant first, accumulating the value;
fails on any non-digit character. -/
def parseNatCore : List Char → Nat → Option Nat
  | [], acc => some acc
  | c :: cs, acc =>
    match charToDigit? c with
    | some d => parseNatCore cs (acc * 10 + d)
    | none => none

/-- A nonempty all-digit character list denotes a natural number. -/
def parseNatList (cs : List Char) : Option Nat :=
  if cs.isEmpty then none else parseNatCore cs 0

/-- Decimal digit characters of `n`, most significant first; `fuel` bounds
the recursion and any `fuel ≥ n` is exact. Empty for `n = 0`. -/
def natToDigitsAux : Nat → Nat → List Char
  | 0, _ => []
  | fuel + 1, n =>
    if n = 0 then [] else natToDigitsAux fuel (n / 10) ++ [Nat.digitChar (n % 10)]

/-- The decimal notation of a natural number (Python `str` on a
non-negative `int`). -/
def natToString (n : Nat) : String :=
  if n = 0 then "0" else ⟨natToDigitsAux n n⟩

/-- The decimal notation of an integer (Python `str` on an `int`). -/
def intToString (n : Int) : String :=
  if n < 0 then "-" ++ natToString n.natAbs else natToString n.natAbs

/-- Python `int(s)` on a decimal string: an optional sign followed by at
least one digit; anything else is rejected. -/
def parseIntStr (s : String) : Option Int :=
  match s.data with
  | [] => none
  | c :: cs =>
    if c = '-' then (parseNatList cs).map (fun m => -(Int.ofNat m))
    else if c = '+' then (parseNatList cs).map Int.ofNat
    else (parseNatCore (c :: cs) 0).map Int.ofNat

theorem parseNatCore_append (l1 l2 : List Char) (acc : Nat) :
    parseNatCore (l1 ++ l2) acc =
      match parseNatCore l1 acc with
      | some m => parseNatCore l2 m
      | none => none := by
  induction l1 generalizing acc with
  | nil => rfl
  | cons c cs ih =>
    simp only [List.cons_append, parseNatCore]
    cases charToDigit? c with
    | none => rfl
    | some d => exact ih _

theorem charToDigit?_digitChar (d : Nat) (hd : d < 10) :
    charToDigit? (Nat.digitChar d) = some d := by
  interval_cases d <;> rfl

theorem digitChar_ne_sign (d : Nat) (hd : d < 10) :
    Nat.digitChar d ≠ '-' ∧ Nat.digitChar d ≠ '+' := by
  interval_cases d <;> exact ⟨by decide, by decide⟩

theorem natToDigitsAux_mem (fuel n : Nat) (c : Char)
    (hc : c ∈ natToDigitsAux fuel n) : ∃ d, d < 10 ∧ c = Nat.digitChar d := by
  induction fuel generalizing n with
  | zero => simp [natToDigitsAux] at hc
  | succ fuel ih =>
    by_cases h0 : n = 0
    · simp [natToDigitsAux, h0] at hc
    · simp only [natToDigitsAux, h0, if_false, List.mem_append,
        List.mem_singleton] at hc
      rcases hc with hc | hc
      · exact ih _ hc
      · exact ⟨n % 10, Nat.mod_lt _ (by omega), hc⟩

theorem parseNatCore_natToDigitsAux (fuel : Nat) :
    ∀ n acc, n ≤ fuel →
      parseNatCore (natToDigitsAux fuel n) acc =
        some (acc * 10 ^ (natToDigitsAux fuel n).length + n) := by
  induction fuel with
  | zero =>
    intro n acc hn
    have : n = 0 := Nat.le_zero.mp hn
    subst this
    simp [natToDigitsAux, parseNatCore]
  | succ fuel ih =>
    intro n acc hn
    by_cases h0 : n = 0
    · subst h0; simp [natToDigitsAux, parseNatCore]
    · have hdiv : n / 10 ≤ fuel := by
        have : n / 10 < n := Nat.div_lt_self (by omega) (by omega)
        omega
      simp only [natToDigitsAux, h0, if_false]
      rw [parseNatCore_append, ih (n / 10) acc hdiv]
      simp only [parseNatCore, charToDigit?_digitChar (n % 10) (Nat.mod_lt _ (by omega))]
      have hlen : (natToDigitsAux fuel (n / 10) ++ [Nat.digitChar (n % 10)]).length =
          (natToDigitsAux fuel (n / 10)).length + 1 := by simp
      rw [hlen]
      congr 1
      have hmod : 10 * (n / 10) + n % 10 = n := Nat.div_add_mod n 10
      ring_nf
      omega

theorem natToDigitsAux_ne_nil (fuel n : Nat) (h0 : n ≠ 0) (hn : n ≤ fuel) :
    natToDigitsAux fuel n ≠ [] := by
  cases fuel with
  | zero => omega
  | succ fuel => simp [natToDigitsAux, h0]

/-- Parsing a string made of decimal digits that evaluate to `n` yields
`(n : Int)`. -/
theorem parseIntStr_digits (cs : List Char) (n : Nat) (hne : cs ≠ [])
    (hdig : ∀ c ∈ cs, ∃ d, d < 10 ∧ c = Nat.digitChar d)
    (hval : parseNatCore cs 0 = some n) :
    parseIntStr ⟨cs⟩ = some (n : Int) := by
  cases cs with
  | nil => exact absurd rfl hne
  | cons c cs' =>
    obtain ⟨d, hd, hc⟩ := hdig c (by simp)
    obtain ⟨hm, hp⟩ := digitChar_ne_sign d hd
    show parseIntStr (String.mk (c :: cs')) = some (n : Int)
    simp only [parseIntStr]
    rw [if_neg (by rw [hc]; exact hm), if_neg (by rw [hc]; exact hp), hval]
    rfl

theorem parseNatList_of_ne_nil (cs : List Char) (h : cs ≠ []) :
    parseNatList cs = parseNatCore cs 0 := by
  cases cs with
  | nil => exact absurd rfl h
  | cons c cs' => rfl

theorem parseNatList_natToString (n : Nat) (h0 : n ≠ 0) :
    parseNatList (natToString n).data = some n := by
  simp only [natToString, if_neg h0]
  rw [parseNatList_of_ne_nil _ (natToDigitsAux_ne_nil n n h0 (le_refl _))]
  rw [parseNatCore_natToDigitsAux n n 0 (le_refl _)]
  simp

/-- Round trip of decimal notation through `int()`: for every integer `n`,
`parseIntStr (intToString n) = some n`. -/
theorem parseIntStr_intToString (n : Int) : parseIntStr (intToString n) = some n := by
  by_cases hneg : n < 0
  · have habs : n.natAbs ≠ 0 := by omega
    have hm := parseNatList_natToString n.natAbs habs
    have hdata : (intToString n).data = '-' :: (natToString n.natAbs).data := by
      simp only [intToString, if_pos hneg]
      rfl
    simp only [parseIntStr, hdata, reduceIte, hm, Option.map_some', Option.some.injEq,
      Int.ofNat_eq_coe]
    omega
  · by_cases h0 : n = 0
    · subst h0; decide
    · have habs : n.natAbs ≠ 0 := by omega
      have hval := parseNatCore_natToDigitsAux n.natAbs n.natAbs 0 (le_refl _)
      have hps : parseIntStr ⟨natToDigitsAux n.natAbs n.natAbs⟩ = some ((n.natAbs : Nat) : Int) :=
        parseIntStr_digits _ n.natAbs (natToDigitsAux_ne_nil _ _ habs (le_refl _))
          (fun c hc => natToDigitsAux_mem _ _ c hc) (by rw [hval]; simp)
      have hstr : intToString n = ⟨natToDigitsAux n.natAbs n.natAbs⟩ := by
        simp only [intToString, if_neg hneg, natToString, if_neg habs]
      rw [hstr, hps]
      congr 1
      omega

/-! ## Association-list dictionaries

Python `dict`s (the datatype registry `_toPythonMapping` and the SPARQL
`CUSTOM_EVALS` registry) are modelled as association lists in insertion
order; assigning to an existing key updates the value in place, assigning
to a fresh key appends. -/

/-- Dictionary lookup: the value stored under the first matching key. -/
def assocLookup {α : Type _} : List (String × α) → String → Option α
  | [], _ => none
  | (k, v) :: rest, n => if k = n then some v else assocLookup rest n

/-- Python dict assignment `d[k] = v`: update in place or append. -/
def assocInsert {α : Type _} : List (String × α) → String → α → List (String × α)
  | [], k, v => [(k, v)]
  | (k', v') :: rest, k, v =>
    if k' = k then (k', v) :: rest else (k', v') :: assocInsert rest k v

theorem assocLookup_assocInsert {α : Type _} (d : List (String × α)) (k : String)
    (v : α) (n : String) :
    assocLookup (assocInsert d k v) n =
      if k = n then some v else assocLookup d n := by
  induction d with
  | nil => rfl
  | cons p rest ih =>
    obtain ⟨k', v'⟩ := p
    by_cases hk : k' = k
    · subst hk
      simp only [assocInsert, if_pos rfl, assocLookup]
      by_cases hn : k' = n <;> simp [assocLookup, hn]
    · simp only [assocInsert, if_neg hk, assocLookup, ih]
      by_cases hn : k' = n <;> by_cases hm : k = n <;> simp_all

theorem assocLookup_mem {α : Type _} (d : List (String × α)) (n : String) (v : α)
    (h : assocLookup d n = some v) : (n, v) ∈ d := by
  induction d with
  | nil => cases h
  | cons p rest ih =>
    obtain ⟨k, w⟩ := p
    by_cases hk : k = n
    · subst hk
      simp only [assocLookup, if_pos rfl] at h
      injection h with h
      subst h
      simp
    · simp only [assocLookup, if_neg hk] at h
      simp [ih h]

/-! ## Coercion rules and the datatype registry -/

/-- Modelled from the spec: a coercion rule of the Datatype Registry,
`{parse : lexical → value-or-rejection, serialize : value → lexical}`
(the registry entries of `rdflib/term.py`, which is not among the provided
sources). `wellFormed` delimits the native values the rule considers
well-formed, i.e. those its parse function can produce. -/
structure Rule where
  parse : String → Option PyValue
  serialize : PyValue → String
  wellFormed : PyValue → Bool

/-- Modelled from the spec: ASCII lowercasing as used by the boolean
coercion rule (Python `str.lower` restricted to ASCII). -/
def strLower (s : String) : String := ⟨s.data.map Char.toLower⟩

/-- Modelled from the spec: the boolean lexical-to-value coercion of the
missing `rdflib/term.py` (`_parseBoolean`), as exercised by
`TestParseBoolean` and the `xsd:boolean` rows of `test_ill_formed_literals`:
case-insensitive `true`/`1` and `false`/`0`; any other lexical form is
rejected. -/
def boolParse (s : String) : Option PyValue :=
  let l := strLower s
  if l = "1" ∨ l = "true" then some (.bool true)
  else if l = "0" ∨ l = "false" then some (.bool false)
  else none

def boolSerialize : PyValue → String
  | .bool true => "true"
  | .bool false => "false"
  | _ => ""

def boolWellFormed : PyValue → Bool
  | .bool _ => true
  | _ => false

def boolRule : Rule := ⟨boolParse, boolSerialize, boolWellFormed⟩

/-- Both optional bounds hold of `n`. -/
def inRange (lo hi : Option Int) (n : Int) : Bool :=
  (match lo with
   | none => true
   | some l => decide (l ≤ n)) &&
  (match hi with
   | none => true
   | some h => decide (n ≤ h))

/-- Modelled from the spec: the bounded-integer lexical-to-value coercions
of the missing `rdflib/term.py` for `xsd:byte`, `xsd:short`, `xsd:int`,
`xsd:unsignedByte`, `xsd:nonNegativeInteger`, `xsd:integer` and kin:
Python `int()` on the lexical form followed by a range check, rejection
otherwise. -/
def intParse (lo hi : Option Int) (s : String) : Option PyValue :=
  match parseIntStr s with
  | none => none
  | some n => if inRange lo hi n then some (.int n) else none

def intSerialize : PyValue → String
  | .int n => intToString n
  | _ => ""

def intWellFormed (lo hi : Option Int) : PyValue → Bool
  | .int n => inRange lo hi n
  | _ => false

def intRule (lo hi : Option Int) : Rule :=
  ⟨intParse lo hi, intSerialize, intWellFormed lo hi⟩

/-- The `xsd:string` rule: the identity coercion. -/
def strParse (s : String) : Option PyValue := some (.str s)

def strSerialize : PyValue → String
  | .str s => s
  | _ => ""

def strWellFormed : PyValue → Bool
  | .str _ => true
  | _ => false

def strRule : Rule := ⟨strParse, strSerialize, strWellFormed⟩

/-! ## Fractional-numeric rules (`xsd:double`, `xsd:decimal`) -/

/-- Split a character list at the first dot; any later dot stays in the
tail (and makes the fractional digit check fail, as Python rejects
`1.2.3`). -/
def splitAtDot : List Char → List Char × Option (List Char)
  | [] => ([], none)
  | c :: cs =>
    if c = '.' then ([], some cs)
    else
      let r := splitAtDot cs
      (c :: r.1, r.2)

/-- The digit values of an all-digit character list, kept verbatim. -/
def parseFracDigits : List Char → Option (List Nat)
  | [] => some []
  | c :: cs =>
    match charToDigit? c, parseFracDigits cs with
    | some d, some ds => some (d :: ds)
    | _, _ => none

/-- Every fractional digit is an actual decimal digit. -/
def decimalRepWF (r : DecimalRep) : Bool :=
  r.frac.all (fun d => decide (d < 10))

/-- The characters the fractional part contributes: nothing when there
are no fractional digits, otherwise a dot and the digits. -/
def fracTailChars : List Nat → List Char
  | [] => []
  | frac => '.' :: frac.map Nat.digitChar

/-- The decimal notation `[-]intPart[.frac]` of a `DecimalRep` (Python
`str` on a `Decimal`, and the shortest `repr` of a float). -/
def serializeDecimalRep (r : DecimalRep) : String :=
  ⟨(if r.neg then ['-'] else []) ++ (natToString r.intPart).data ++
    fracTailChars r.frac⟩

/-- Unsigned decimal notation: digits, optionally a dot and more digits. -/
def parseDecimalCore (cs : List Char) : Option (Nat × List Nat) :=
  match splitAtDot cs with
  | (ip, none) => (parseNatList ip).map (fun n => (n, []))
  | (ip, some fr) =>
    if fr.isEmpty then none
    else
      match parseNatList ip, parseFracDigits fr with
      | some n, some ds => some (n, ds)
      | _, _ => none

/-- Modelled from the spec: the fractional-numeric lexical-to-value
coercion of the missing `rdflib/term.py` for `xsd:double` and
`xsd:decimal` (Python `float`/`Decimal` on the lexical form), on the
canonical plain decimal notations; exponent forms are not modelled. -/
def parseDecimalRep (s : String) : Option DecimalRep :=
  match s.data with
  | [] => none
  | c :: cs =>
    if c = '-' then (parseDecimalCore cs).map (fun p => ⟨true, p.1, p.2⟩)
    else if c = '+' then (parseDecimalCore cs).map (fun p => ⟨false, p.1, p.2⟩)
    else (parseDecimalCore (c :: cs)).map (fun p => ⟨false, p.1, p.2⟩)

def doubleParse (s : String) : Option PyValue := (parseDecimalRep s).map .double

def doubleSerialize : PyValue → String
  | .double r => serializeDecimalRep r
  | _ => ""

def doubleWellFormed : PyValue → Bool
  | .double r => decimalRepWF r
  | _ => false

def doubleRule : Rule := ⟨doubleParse, doubleSerialize, doubleWellFormed⟩

def decimalParse (s : String) : Option PyValue := (parseDecimalRep s).map .decimal

def decimalSerialize : PyValue → String
  | .decimal r => serializeDecimalRep r
  | _ => ""

def decimalWellFormed : PyValue → Bool
  | .decimal r => decimalRepWF r
  | _ => false

def decimalRule : Rule := ⟨decimalParse, decimalSerialize, decimalWellFormed⟩

/-! ## Date rules (`xsd:date`, `xsd:time`, `xsd:dateTime`)

Modelled from the spec: the date-type coercions of the missing
`rdflib/term.py` on the canonical second-precision ISO forms
`YYYY-MM-DD`, `HH:MM:SS` and `YYYY-MM-DDTHH:MM:SS`; timezone offsets,
fractional seconds and negative years are not modelled, and calendar
validation beyond the field ranges is not modelled. -/

/-- A two-digit zero-padded field. -/
def pad2 (n : Nat) : List Char := [Nat.digitChar (n / 10 % 10), Nat.digitChar (n % 10)]

/-- A four-digit zero-padded field. -/
def pad4 (n : Nat) : List Char :=
  [Nat.digitChar (n / 1000 % 10), Nat.digitChar (n / 100 % 10),
   Nat.digitChar (n / 10 % 10), Nat.digitChar (n % 10)]

def parse2Digits (c1 c2 : Char) : Option Nat :=
  match charToDigit? c1, charToDigit? c2 with
  | some d1, some d2 => some (d1 * 10 + d2)
  | _, _ => none

def parse4Digits (c1 c2 c3 c4 : Char) : Option Nat :=
  match charToDigit? c1, charToDigit? c2, charToDigit? c3, charToDigit? c4 with
  | some d1, some d2, some d3, some d4 =>
    some (d1 * 1000 + d2 * 100 + d3 * 10 + d4)
  | _, _, _, _ => none

def dateChars (y mo d : Nat) : List Char :=
  pad4 y ++ '-' :: (pad2 mo ++ '-' :: pad2 d)

def timeChars (h mi s : Nat) : List Char :=
  pad2 h ++ ':' :: (pad2 mi ++ ':' :: pad2 s)

def dateTimeChars (y mo d h mi s : Nat) : List Char :=
  dateChars y mo d ++ 'T' :: timeChars h mi s

def dateParse (s : String) : Option PyValue :=
  match s.data with
  | [y1, y2, y3, y4, s1, m1, m2, s2, d1, d2] =>
    if s1 = '-' ∧ s2 = '-' then
      match parse4Digits y1 y2 y3 y4, parse2Digits m1 m2, parse2Digits d1 d2 with
      | some y, some mo, some d =>
        if 1 ≤ y ∧ 1 ≤ mo ∧ mo ≤ 12 ∧ 1 ≤ d ∧ d ≤ 31 then some (.date y mo d)
        else none
      | _, _, _ => none
    else none
  | _ => none

def timeParse (s : String) : Option PyValue :=
  match s.data with
  | [h1, h2, k1, m1, m2, k2, s1, s2] =>
    if k1 = ':' ∧ k2 = ':' then
      match parse2Digits h1 h2, parse2Digits m1 m2, parse2Digits s1 s2 with
      | some h, some mi, some s =>
        if h ≤ 23 ∧ mi ≤ 59 ∧ s ≤ 59 then some (.time h mi s) else none
      | _, _, _ => none
    else none
  | _ => none

def dateTimeParse (s : String) : Option PyValue :=
  match s.data with
  | [y1, y2, y3, y4, q1, mo1, mo2, q2, d1, d2, qT, h1, h2, k1, mi1, mi2, k2, s1, s2] =>
    if q1 = '-' ∧ q2 = '-' ∧ qT = 'T' ∧ k1 = ':' ∧ k2 = ':' then
      match parse4Digits y1 y2 y3 y4, parse2Digits mo1 mo2, parse2Digits d1 d2,
          parse2Digits h1 h2, parse2Digits mi1 mi2, parse2Digits s1 s2 with
      | some y, some mo, some d, some h, some mi, some s =>
        if 1 ≤ y ∧ 1 ≤ mo ∧ mo ≤ 12 ∧ 1 ≤ d ∧ d ≤ 31 ∧ h ≤ 23 ∧ mi ≤ 59 ∧ s ≤ 59 then
          some (.dateTime y mo d h mi s)
        else none
      | _, _, _, _, _, _ => none
    else none
  | _ => none

def dateSerialize : PyValue → String
  | .date y mo d => ⟨dateChars y mo d⟩
  | _ => ""

def timeSerialize : PyValue → String
  | .time h mi s => ⟨timeChars h mi s⟩
  | _ => ""

def dateTimeSerialize : PyValue → String
  | .dateTime y mo d h mi s => ⟨dateTimeChars y mo d h mi s⟩
  | _ => ""

def dateWellFormed : PyValue → Bool
  | .date y mo d =>
    decide (1 ≤ y) && decide (y ≤ 9999) && decide (1 ≤ mo) && decide (mo ≤ 12) &&
      decide (1 ≤ d) && decide (d ≤ 31)
  | _ => false

def timeWellFormed : PyValue → Bool
  | .time h mi s => decide (h ≤ 23) && decide (mi ≤ 59) && decide (s ≤ 59)
  | _ => false

def dateTimeWellFormed : PyValue → Bool
  | .dateTime y mo d h mi s =>
    decide (1 ≤ y) && decide (y ≤ 9999) && decide (1 ≤ mo) && decide (mo ≤ 12) &&
      decide (1 ≤ d) && decide (d ≤ 31) && decide (h ≤ 23) && decide (mi ≤ 59) &&
      decide (s ≤ 59)
  | _ => false

def dateRule : Rule := ⟨dateParse, dateSerialize, dateWellFormed⟩

def timeRule : Rule := ⟨timeParse, timeSerialize, timeWellFormed⟩

def dateTimeRule : Rule := ⟨dateTimeParse, dateTimeSerialize, dateTimeWellFormed⟩

/-! ## Binary rules (`xsd:hexBinary`, `xsd:base64Binary`)

Modelled from the spec: the binary coercions of the missing
`rdflib/term.py` — hex decoding/lowercase hex encoding and standard
padded base64 — producing Python `bytes` values. -/

/-- The value of a hexadecimal digit, either case. -/
def hexCharToDigit? (c : Char) : Option Nat :=
  if c.isDigit then some (c.toNat - 48)
  else if 'a' ≤ c ∧ c ≤ 'f' then some (c.toNat - 97 + 10)
  else if 'A' ≤ c ∧ c ≤ 'F' then some (c.toNat - 65 + 10)
  else none

/-- Lowercase hex encoding, two digits per byte. -/
def hexEncodeBytes : List Nat → List Char
  | [] => []
  | b :: bs => Nat.digitChar (b / 16) :: Nat.digitChar (b % 16) :: hexEncodeBytes bs

/-- Hex decoding: an even number of hex digits, two per byte. -/
def hexDecodeChars : List Char → Option (List Nat)
  | [] => some []
  | [_] => none
  | c1 :: c2 :: cs =>
    match hexCharToDigit? c1, hexCharToDigit? c2, hexDecodeChars cs with
    | some d1, some d2, some bs => some ((d1 * 16 + d2) :: bs)
    | _, _, _ => none

def bytesWellFormed : PyValue → Bool
  | .bytes bs => bs.all (fun b => decide (b < 256))
  | _ => false

def hexBinaryParse (s : String) : Option PyValue := (hexDecodeChars s.data).map .bytes

def hexBinarySerialize : PyValue → String
  | .bytes bs => ⟨hexEncodeBytes bs⟩
  | _ => ""

def hexBinaryRule : Rule := ⟨hexBinaryParse, hexBinarySerialize, bytesWellFormed⟩

/-- The base64 alphabet character of a sextet. -/
def sextetChar (k : Nat) : Char :=
  if k < 26 then Char.ofNat (65 + k)
  else if k < 52 then Char.ofNat (97 + (k - 26))
  else if k < 62 then Char.ofNat (48 + (k - 52))
  else if k = 62 then '+'
  else '/'

/-- The sextet of a base64 alphabet character. -/
def sextetVal? (c : Char) : Option Nat :=
  if 'A' ≤ c ∧ c ≤ 'Z' then some (c.toNat - 65)
  else if 'a' ≤ c ∧ c ≤ 'z' then some (c.toNat - 97 + 26)
  else if c.isDigit then some (c.toNat - 48 + 52)
  else if c = '+' then some 62
  else if c = '/' then some 63
  else none

/-- Standard padded base64 encoding, three bytes to four characters. -/
def b64EncodeBytes : List Nat → List Char
  | [] => []
  | [b1] => [sextetChar (b1 / 4), sextetChar (b1 % 4 * 16), '=', '=']
  | [b1, b2] =>
    [sextetChar (b1 / 4), sextetChar (b1 % 4 * 16 + b2 / 16),
     sextetChar (b2 % 16 * 4), '=']
  | b1 :: b2 :: b3 :: bs =>
    sextetChar (b1 / 4) :: sextetChar (b1 % 4 * 16 + b2 / 16) ::
      sextetChar (b2 % 16 * 4 + b3 / 64) :: sextetChar (b3 % 64) :: b64EncodeBytes bs

/-- Standard padded base64 decoding, four characters to up to three
bytes, padding only in a final group. -/
def b64DecodeGroups : List Char → Option (List Nat)
  | [] => some []
  | c1 :: c2 :: c3 :: c4 :: cs =>
    if c3 = '=' ∧ c4 = '=' ∧ cs = [] then
      match sextetVal? c1, sextetVal? c2 with
      | some s1, some s2 => some [s1 * 4 + s2 / 16]
      | _, _ => none
    else if c4 = '=' ∧ cs = [] then
      match sextetVal? c1, sextetVal? c2, sextetVal? c3 with
      | some s1, some s2, some s3 =>
        some [s1 * 4 + s2 / 16, s2 % 16 * 16 + s3 / 4]
      | _, _, _ => none
    else
      match sextetVal? c1, sextetVal? c2, sextetVal? c3, sextetVal? c4,
          b64DecodeGroups cs with
      | some s1, some s2, some s3, some s4, some bs =>
        some ((s1 * 4 + s2 / 16) :: (s2 % 16 * 16 + s3 / 4) ::
          (s3 % 4 * 64 + s4) :: bs)
      | _, _, _, _, _ => none
  | _ => none

def base64BinaryParse (s : String) : Option PyValue :=
  (b64DecodeGroups s.data).map .bytes

def base64BinarySerialize : PyValue → String
  | .bytes bs => ⟨b64EncodeBytes bs⟩
  | _ => ""

def base64BinaryRule : Rule := ⟨base64BinaryParse, base64BinarySerialize, bytesWellFormed⟩

/-! ## The custom rules of `TestBindings.testBinding`

`bind(dtA, a)` registers class `a` for `urn:dt:a`: with no explicit
constructor the class itself parses (`a(lexical)` keeps `lexical[3:-3]`)
and with no explicit lexicalizer `str(value)` serializes
(`"<<<" + v + ">>>"`). `bind(dtB, b, None, lambda x: "<<<%s>>>" % x)`
registers class `b` for `urn:dt:b`: `b(lexical)` keeps `lexical[3:-3]`,
and the lexicalizer wraps `str(x) = "B" + v` — so serialization prepends
a `B` that parsing keeps. -/

/-- Python `s[3:-3]`. -/
def pySlice3m3 (s : String) : String :=
  ⟨(((s.data.drop 3).dropLast).dropLast).dropLast⟩

def aParse (s : String) : Option PyValue := some (.objA (pySlice3m3 s))

def aSerialize : PyValue → String
  | .objA v => ⟨'<' :: '<' :: '<' :: (v.data ++ ['>', '>', '>'])⟩
  | _ => ""

def aWellFormed : PyValue → Bool
  | .objA _ => true
  | _ => false

def aRule : Rule := ⟨aParse, aSerialize, aWellFormed⟩

def bParse (s : String) : Option PyValue := some (.objB (pySlice3m3 s))

def bSerialize : PyValue → String
  | .objB v => ⟨'<' :: '<' :: '<' :: ('B' :: v.data ++ ['>', '>', '>'])⟩
  | _ => ""

def bWellFormed : PyValue → Bool
  | .objB _ => true
  | _ => false

def bRule : Rule := ⟨bParse, bSerialize, bWellFormed⟩

/-- The XSD namespace of the datatype IRIs. -/
def xsd (s : String) : String := "http://www.w3.org/2001/XMLSchema#" ++ s

/-- The language-string datatype IRI (`RDF.langString`), which carries no
coercion rule. -/
def rdfLangString : String :=
  "http://www.w3.org/1999/02/22-rdf-syntax-ns#langString"

/-- Modelled from the spec: the Datatype Registry populated at startup
with built-in rules for the standard numeric (boolean, bounded and
unbounded integers, double, decimal), date (date, time, dateTime), binary
(hexBinary, base64Binary) and string types — the `_toPythonMapping` of
the missing `rdflib/term.py`, on the canonical lexical subsets described
at each rule; `rdf:langString` and unrecognized IRIs deliberately have no
entry. -/
def builtinRules : List (String × Rule) :=
  [ (xsd "boolean", boolRule)
  , (xsd "byte", intRule (some (-128)) (some 127))
  , (xsd "unsignedByte", intRule (some 0) (some 255))
  , (xsd "short", intRule (some (-32768)) (some 32767))
  , (xsd "int", intRule (some (-2147483648)) (some 2147483647))
  , (xsd "nonNegativeInteger", intRule (some 0) none)
  , (xsd "integer", intRule none none)
  , (xsd "string", strRule)
  , (xsd "double", doubleRule)
  , (xsd "decimal", decimalRule)
  , (xsd "date", dateRule)
  , (xsd "time", timeRule)
  , (xsd "dateTime", dateTimeRule)
  , (xsd "hexBinary", hexBinaryRule)
  , (xsd "base64Binary", base64BinaryRule) ]

/-- Modelled from the spec: the datatype registration operation `bind`,
which adds an entry for a datatype IRI to the registry; re-binding the
same datatype replaces the prior rule. -/
def bind (reg : List (String × Rule)) (datatype : String) (rule : Rule) :
    List (String × Rule) :=
  assocInsert reg datatype rule

/-! ## The language-tag grammar -/

/-- Split a character list at every dash, keeping empty segments. -/
def splitDash : List Char → List (List Char)
  | [] => [[]]
  | c :: cs =>
    if c = '-' then [] :: splitDash cs
    else
      match splitDash cs with
      | seg :: rest => (c :: seg) :: rest
      | [] => [[c]]

/-- Modelled from the spec: the strict BCP47-like tag grammar against
which literal language tags are validated in the missing `rdflib/term.py`
(the regular expression `[a-zA-Z]+(-[a-zA-Z0-9]+)*`): a nonempty ASCII
alphabetic primary subtag followed by dash-separated nonempty
alphanumeric subtags. -/
def isValidLangTag (s : String) : Bool :=
  match splitDash s.data with
  | [] => false
  | first :: rest =>
    (!first.isEmpty) && first.all (fun c => c.isAlpha) &&
      rest.all (fun seg => (!seg.isEmpty) && seg.all (fun c => c.isAlpha || c.isDigit))

/-! ## Literals and their construction -/

/-- A typed or tagged literal: exact lexical form, optional datatype IRI,
optional language tag, the coerced native value when a registered rule
accepted the lexical form, and the tri-state well-formedness flag
(`none` when no rule is registered for the datatype). -/
structure Literal where
  lexical : String
  datatype : Option String
  language : Option String
  value : Option PyValue
  ill_formed : Option Bool
  deriving DecidableEq, Repr

/-- Modelled from the spec: literal construction from a lexical form
(`Literal.__new__` of the missing `rdflib/term.py`). The language tag, when
present, is validated against the strict tag grammar (`TypeError` for a
non-string tag, `ValueError` for a grammar violation) and is mutually
exclusive with an explicit datatype other than `rdf:langString`
(`TypeError`). With no language tag, a registered coercion rule for the
datatype is run on the decoded lexical form: acceptance yields a present
value and `ill_formed = false`, rejection an absent value and
`ill_formed = true`, and coercion never raises; with no registered rule
both the value and the flag are absent. -/
def Literal.new (registry : List (String × Rule)) (lexical_or_value : PyLex)
    (lang : Option PyObj) (datatype : Option String) : Except LitError Literal :=
  match lang with
  | some (.str t) =>
    if isValidLangTag t then
      match datatype with
      | some dt =>
        if dt = rdfLangString then
          .ok { lexical := lexical_or_value.decode, datatype := some dt,
                language := some t, value := none, ill_formed := none }
        else .error .typeError
      | none =>
        .ok { lexical := lexical_or_value.decode, datatype := none,
              language := some t, value := none, ill_formed := none }
    else .error .valueError
  | some _ => .error .typeError
  | none =>
    let lex := lexical_or_value.decode
    match datatype with
    | none =>
      .ok { lexical := lex, datatype := none, language := none,
            value := none, ill_formed := none }
    | some dt =>
      match assocLookup registry dt with
      | none =>
        .ok { lexical := lex, datatype := some dt, language := none,
              value := none, ill_formed := none }
      | some rule =>
        match rule.parse lex with
        | some v =>
          .ok { lexical := lex, datatype := some dt, language := none,
                value := some v, ill_formed := some false }
        | none =>
          .ok { lexical := lex, datatype := some dt, language := none,
                value := none, ill_formed := some true }

/-- Modelled from the spec: the datatype the registry's *general* rules
assign to a literal constructed from a native value with no explicit
datatype (default serialization of plain values in the missing
`rdflib/term.py`: native booleans get `xsd:boolean`, integers
`xsd:integer`, strings stay plain). -/
def genericDatatype : PyValue → Option String
  | .bool _ => some (xsd "boolean")
  | .int _ => some (xsd "integer")
  | .str _ => none
  | .double _ => some (xsd "double")
  | .decimal _ => some (xsd "decimal")
  | .date _ _ _ => some (xsd "date")
  | .time _ _ _ => some (xsd "time")
  | .dateTime _ _ _ _ _ _ => some (xsd "dateTime")
  | .bytes _ => none
  | .objA _ => some "urn:dt:a"
  | .objB _ => some "urn:dt:b"

/-- Modelled from the spec: the lexical form the general rules serialize a
native value to. -/
def serializePy : PyValue → String
  | .bool b => if b then "true" else "false"
  | .int n => intToString n
  | .str s => s
  | .double r => serializeDecimalRep r
  | .decimal r => serializeDecimalRep r
  | .date y mo d => ⟨dateChars y mo d⟩
  | .time h mi s => ⟨timeChars h mi s⟩
  | .dateTime y mo d h mi s => ⟨dateTimeChars y mo d h mi s⟩
  | .bytes bs => ⟨bs.map Char.ofNat⟩
  | .objA v => ⟨'<' :: '<' :: '<' :: (v.data ++ ['>', '>', '>'])⟩
  | .objB v => ⟨'<' :: '<' :: '<' :: ('B' :: v.data ++ ['>', '>', '>'])⟩

/-- Modelled from the spec: literal construction from a native value
(`Literal.__new__` of the missing `rdflib/term.py` on a non-string
argument): the value is kept, the lexical form is its serialization, and
an absent datatype is filled in by the general rule for the value's
native type. -/
def Literal.fromValue (registry : List (String × Rule)) (v : PyValue)
    (datatype : Option String) : Literal :=
  let dt := match datatype with
    | some d => some d
    | none => genericDatatype v
  { lexical := serializePy v, datatype := dt, language := none,
    value := some v,
    ill_formed := match dt with
      | none => none
      | some d => if (assocLookup registry d).isSome then some false else none }

/-- Python truthiness of an optional native value: an absent value
(`None`) is falsy, as are `False`, `0` and the empty string. -/
def pyTruthy : Option PyValue → Bool
  | none => false
  | some (.bool b) => b
  | some (.int n) => !(n = 0)
  | some (.str s) => !s.isEmpty
  | some (.double r) => !(decide (r.intPart = 0) && r.frac.all (fun d => decide (d = 0)))
  | some (.decimal r) => !(decide (r.intPart = 0) && r.frac.all (fun d => decide (d = 0)))
  | some (.date _ _ _) => true
  | some (.time _ _ _) => true
  | some (.dateTime _ _ _ _ _ _) => true
  | some (.bytes bs) => !bs.isEmpty
  | some (.objA _) => true
  | some (.objB _) => true

/-! ## The datatype rule of the specific-binding test -/

/-- The serializer registered by `TestBindings.testSpecificBinding`. -/
def lexify (s : String) : String := "--" ++ s ++ "--"

/-- The parser registered by `TestBindings.testSpecificBinding`
(Python `s[2:-2]`). -/
def unlexify (s : String) : String := ⟨((s.data.drop 2).dropLast).dropLast⟩

def mystringParse (s : String) : Option PyValue := some (.str (unlexify s))

def mystringSerialize : PyValue → String
  | .str s => lexify s
  | _ => ""

def mystringRule : Rule := ⟨mystringParse, mystringSerialize, strWellFormed⟩

/-- The registry after the registrations of the cited binding tests, in
their order: `bind(urn:dt:a, a)` and `bind(urn:dt:b, b, None, lambda ...)`
from `testBinding`, then `bind(urn:dt:mystring, str, unlexify, lexify,
datatype_specific=True)` from `testSpecificBinding`. -/
def boundRules : List (String × Rule) :=
  bind (bind (bind builtinRules "urn:dt:a" aRule) "urn:dt:b" bRule)
    "urn:dt:mystring" mystringRule

theorem unlexify_lexify (s : String) : unlexify (lexify s) = s := by
  obtain ⟨l⟩ := s
  show (⟨(((lexify ⟨l⟩).data.drop 2).dropLast).dropLast⟩ : String) = ⟨l⟩
  have h1 : (lexify ⟨l⟩).data.drop 2 = l ++ ['-', '-'] := rfl
  rw [h1]
  have h2 : ((l ++ ['-', '-']).dropLast).dropLast = l := by
    have h3 : l ++ ['-', '-'] = (l ++ ['-']) ++ ['-'] := by simp
    rw [h3, List.dropLast_concat, List.dropLast_concat]
  rw [h2]

/-! ## Per-rule round trips -/

theorem boolRule_roundtrip (v : PyValue) (h : boolWellFormed v = true) :
    boolParse (boolSerialize v) = some v := by
  cases v
  case bool b => cases b <;> decide
  all_goals simp [boolWellFormed] at h

theorem intRule_roundtrip (lo hi : Option Int) (v : PyValue)
    (h : intWellFormed lo hi v = true) :
    intParse lo hi (intSerialize v) = some v := by
  cases v
  case int n =>
    simp only [intWellFormed] at h
    simp only [intSerialize, intParse, parseIntStr_intToString]
    rw [if_pos h]
  all_goals simp [intWellFormed] at h

theorem strRule_roundtrip (v : PyValue) (h : strWellFormed v = true) :
    strParse (strSerialize v) = some v := by
  cases v
  case str s => rfl
  all_goals simp [strWellFormed] at h

theorem mystringRule_roundtrip (v : PyValue) (h : strWellFormed v = true) :
    mystringParse (mystringSerialize v) = some v := by
  cases v
  case str s => simp only [mystringSerialize, mystringParse, unlexify_lexify]
  all_goals simp [strWellFormed] at h

theorem parseNatList_natToString_all (n : Nat) :
    parseNatList (natToString n).data = some n := by
  by_cases h0 : n = 0
  · subst h0; decide
  · exact parseNatList_natToString n h0

theorem natToString_data_ne_nil (n : Nat) : (natToString n).data ≠ [] := by
  by_cases h0 : n = 0
  · subst h0; decide
  · simp only [natToString, if_neg h0]
    exact natToDigitsAux_ne_nil n n h0 (le_refl _)

theorem natToString_mem (n : Nat) (c : Char) (hc : c ∈ (natToString n).data) :
    ∃ d, d < 10 ∧ c = Nat.digitChar d := by
  by_cases h0 : n = 0
  · subst h0
    have h1 : (natToString 0).data = ['0'] := rfl
    rw [h1] at hc
    simp only [List.mem_singleton] at hc
    exact ⟨0, by omega, by rw [hc]; rfl⟩
  · simp only [natToString, if_neg h0] at hc
    exact natToDigitsAux_mem n n c hc

theorem digitChar_ne_dot (d : Nat) (hd : d < 10) : Nat.digitChar d ≠ '.' := by
  interval_cases d <;> decide

theorem splitAtDot_no_dot (l : List Char) (h : ∀ c ∈ l, c ≠ '.') :
    splitAtDot l = (l, none) := by
  induction l with
  | nil => rfl
  | cons c cs ih =>
    have hc : c ≠ '.' := h c (by simp)
    simp only [splitAtDot, if_neg hc, ih (fun x hx => h x (by simp [hx]))]

theorem splitAtDot_append (l tail : List Char) (h : ∀ c ∈ l, c ≠ '.') :
    splitAtDot (l ++ '.' :: tail) = (l, some tail) := by
  induction l with
  | nil => simp [splitAtDot]
  | cons c cs ih =>
    have hc : c ≠ '.' := h c (by simp)
    simp only [List.cons_append, splitAtDot, if_neg hc, List.append_eq,
      ih (fun x hx => h x (by simp [hx]))]

theorem parseFracDigits_map (ds : List Nat) (h : ∀ d ∈ ds, d < 10) :
    parseFracDigits (ds.map Nat.digitChar) = some ds := by
  induction ds with
  | nil => rfl
  | cons d rest ih =>
    simp only [List.map_cons, parseFracDigits,
      charToDigit?_digitChar d (h d (by simp)),
      ih (fun x hx => h x (by simp [hx]))]

theorem parseDecimalCore_roundtrip (ip : Nat) (frac : List Nat)
    (hf : ∀ d ∈ frac, d < 10) :
    parseDecimalCore ((natToString ip).data ++ fracTailChars frac) =
      some (ip, frac) := by
  have hnd : ∀ c ∈ (natToString ip).data, c ≠ '.' := by
    intro c hc
    obtain ⟨d, hd, rfl⟩ := natToString_mem ip c hc
    exact digitChar_ne_dot d hd
  cases frac with
  | nil =>
    simp only [fracTailChars, List.append_nil, parseDecimalCore,
      splitAtDot_no_dot _ hnd, parseNatList_natToString_all, Option.map_some']
  | cons d0 rest =>
    have hfr := parseFracDigits_map (d0 :: rest) hf
    simp only [List.map_cons] at hfr
    simp only [fracTailChars, parseDecimalCore, List.map_cons,
      splitAtDot_append _ _ hnd, parseNatList_natToString_all, hfr,
      List.isEmpty_cons]
    simp

theorem parseDecimalRep_roundtrip (r : DecimalRep) (h : decimalRepWF r = true) :
    parseDecimalRep (serializeDecimalRep r) = some r := by
  obtain ⟨neg, ip, frac⟩ := r
  simp only [decimalRepWF, List.all_eq_true, decide_eq_true_eq] at h
  cases neg with
  | true =>
    have hser : serializeDecimalRep ⟨true, ip, frac⟩ =
        ⟨'-' :: ((natToString ip).data ++ fracTailChars frac)⟩ := rfl
    rw [hser]
    simp only [parseDecimalRep, reduceIte, parseDecimalCore_roundtrip ip frac h,
      Option.map_some']
  | false =>
    have hser : serializeDecimalRep ⟨false, ip, frac⟩ =
        ⟨(natToString ip).data ++ fracTailChars frac⟩ := rfl
    rw [hser]
    cases hd : (natToString ip).data with
    | nil => exact absurd hd (natToString_data_ne_nil ip)
    | cons c cs =>
      obtain ⟨dgt, hdgt, hceq⟩ := natToString_mem ip c (by rw [hd]; simp)
      obtain ⟨hm, hp⟩ := digitChar_ne_sign dgt hdgt
      have hcm : c ≠ '-' := by rw [hceq]; exact hm
      have hcp : c ≠ '+' := by rw [hceq]; exact hp
      simp only [parseDecimalRep, hd, List.cons_append]
      rw [if_neg hcm, if_neg hcp, ← List.cons_append, ← hd,
        parseDecimalCore_roundtrip ip frac h, Option.map_some']

theorem doubleRule_roundtrip (v : PyValue) (h : doubleWellFormed v = true) :
    doubleParse (doubleSerialize v) = some v := by
  cases v
  case double r =>
    simp only [doubleWellFormed] at h
    simp only [doubleSerialize, doubleParse, parseDecimalRep_roundtrip r h,
      Option.map_some']
  all_goals simp [doubleWellFormed] at h

theorem decimalRule_roundtrip (v : PyValue) (h : decimalWellFormed v = true) :
    decimalParse (decimalSerialize v) = some v := by
  cases v
  case decimal r =>
    simp only [decimalWellFormed] at h
    simp only [decimalSerialize, decimalParse, parseDecimalRep_roundtrip r h,
      Option.map_some']
  all_goals simp [decimalWellFormed] at h

theorem parse2Digits_pad (n : Nat) (h : n < 100) :
    parse2Digits (Nat.digitChar (n / 10 % 10)) (Nat.digitChar (n % 10)) = some n := by
  have e1 := charToDigit?_digitChar (n / 10 % 10) (by omega)
  have e2 := charToDigit?_digitChar (n % 10) (by omega)
  simp only [parse2Digits, e1, e2, Option.some.injEq]
  omega

theorem parse4Digits_pad (n : Nat) (h : n < 10000) :
    parse4Digits (Nat.digitChar (n / 1000 % 10)) (Nat.digitChar (n / 100 % 10))
      (Nat.digitChar (n / 10 % 10)) (Nat.digitChar (n % 10)) = some n := by
  have e1 := charToDigit?_digitChar (n / 1000 % 10) (by omega)
  have e2 := charToDigit?_digitChar (n / 100 % 10) (by omega)
  have e3 := charToDigit?_digitChar (n / 10 % 10) (by omega)
  have e4 := charToDigit?_digitChar (n % 10) (by omega)
  simp only [parse4Digits, e1, e2, e3, e4, Option.some.injEq]
  omega

theorem dateRule_roundtrip (v : PyValue) (h : dateWellFormed v = true) :
    dateParse (dateSerialize v) = some v := by
  cases v
  case date y mo d =>
    simp only [dateWellFormed, Bool.and_eq_true, decide_eq_true_eq] at h
    obtain ⟨⟨⟨⟨⟨h1, h2⟩, h3⟩, h4⟩, h5⟩, h6⟩ := h
    have e1 := parse4Digits_pad y (by omega)
    have e2 := parse2Digits_pad mo (by omega)
    have e3 := parse2Digits_pad d (by omega)
    have hcond : 1 ≤ y ∧ 1 ≤ mo ∧ mo ≤ 12 ∧ 1 ≤ d ∧ d ≤ 31 :=
      ⟨h1, h3, h4, h5, h6⟩
    simp only [dateSerialize, dateParse, dateChars, pad4, pad2, List.cons_append,
      List.nil_append, reduceIte, e1, e2, e3]
    simp [hcond]
  all_goals simp [dateWellFormed] at h

theorem timeRule_roundtrip (v : PyValue) (h : timeWellFormed v = true) :
    timeParse (timeSerialize v) = some v := by
  cases v
  case time hh mi s =>
    simp only [timeWellFormed, Bool.and_eq_true, decide_eq_true_eq] at h
    obtain ⟨⟨h1, h2⟩, h3⟩ := h
    have e1 := parse2Digits_pad hh (by omega)
    have e2 := parse2Digits_pad mi (by omega)
    have e3 := parse2Digits_pad s (by omega)
    have hcond : hh ≤ 23 ∧ mi ≤ 59 ∧ s ≤ 59 := ⟨h1, h2, h3⟩
    simp only [timeSerialize, timeParse, timeChars, pad2, List.cons_append,
      List.nil_append, reduceIte, e1, e2, e3]
    simp [hcond]
  all_goals simp [timeWellFormed] at h

theorem dateTimeRule_roundtrip (v : PyValue) (h : dateTimeWellFormed v = true) :
    dateTimeParse (dateTimeSerialize v) = some v := by
  cases v
  case dateTime y mo d hh mi s =>
    simp only [dateTimeWellFormed, Bool.and_eq_true, decide_eq_true_eq] at h
    obtain ⟨⟨⟨⟨⟨⟨⟨⟨h1, h2⟩, h3⟩, h4⟩, h5⟩, h6⟩, h7⟩, h8⟩, h9⟩ := h
    have e1 := parse4Digits_pad y (by omega)
    have e2 := parse2Digits_pad mo (by omega)
    have e3 := parse2Digits_pad d (by omega)
    have e4 := parse2Digits_pad hh (by omega)
    have e5 := parse2Digits_pad mi (by omega)
    have e6 := parse2Digits_pad s (by omega)
    have hcond : 1 ≤ y ∧ 1 ≤ mo ∧ mo ≤ 12 ∧ 1 ≤ d ∧ d ≤ 31 ∧ hh ≤ 23 ∧
        mi ≤ 59 ∧ s ≤ 59 := ⟨h1, h3, h4, h5, h6, h7, h8, h9⟩
    simp only [dateTimeSerialize, dateTimeParse, dateTimeChars, dateChars, timeChars,
      pad4, pad2, List.cons_append, List.nil_append, reduceIte,
      e1, e2, e3, e4, e5, e6]
    simp [hcond]
  all_goals simp [dateTimeWellFormed] at h

theorem hexCharToDigit?_digitChar (d : Nat) (hd : d < 16) :
    hexCharToDigit? (Nat.digitChar d) = some d := by
  interval_cases d <;> rfl

theorem hexDecode_hexEncode (bs : List Nat) (h : ∀ b ∈ bs, b < 256) :
    hexDecodeChars (hexEncodeBytes bs) = some bs := by
  induction bs with
  | nil => rfl
  | cons b rest ih =>
    have hb : b < 256 := h b (by simp)
    have e1 := hexCharToDigit?_digitChar (b / 16) (by omega)
    have e2 := hexCharToDigit?_digitChar (b % 16) (by omega)
    simp only [hexEncodeBytes, hexDecodeChars, e1, e2,
      ih (fun x hx => h x (by simp [hx])), Option.some.injEq, List.cons.injEq,
      and_true]
    omega

theorem hexBinaryRule_roundtrip (v : PyValue) (h : bytesWellFormed v = true) :
    hexBinaryParse (hexBinarySerialize v) = some v := by
  cases v
  case bytes bs =>
    simp only [bytesWellFormed, List.all_eq_true, decide_eq_true_eq] at h
    simp only [hexBinarySerialize, hexBinaryParse, hexDecode_hexEncode bs h,
      Option.map_some']
  all_goals simp [bytesWellFormed] at h

theorem sextetVal?_sextetChar (k : Nat) (hk : k < 64) :
    sextetVal? (sextetChar k) = some k := by
  interval_cases k <;> rfl

theorem sextetChar_ne_pad (k : Nat) (hk : k < 64) : sextetChar k ≠ '=' := by
  intro hc
  have h1 := sextetVal?_sextetChar k hk
  rw [hc] at h1
  have h2 : sextetVal? '=' = none := by decide
  rw [h2] at h1
  exact Option.noConfusion h1

theorem b64Decode_b64Encode : ∀ (bs : List Nat), (∀ b ∈ bs, b < 256) →
    b64DecodeGroups (b64EncodeBytes bs) = some bs
  | [], _ => rfl
  | [b1], h => by
    have hb1 : b1 < 256 := h b1 (by simp)
    have e1 := sextetVal?_sextetChar (b1 / 4) (by omega)
    have e2 := sextetVal?_sextetChar (b1 % 4 * 16) (by omega)
    have hcond : True ∧ True ∧ True := ⟨trivial, trivial, trivial⟩
    simp only [b64EncodeBytes, b64DecodeGroups]
    rw [if_pos hcond]
    simp only [e1, e2, Option.some.injEq, List.cons.injEq, and_true]
    omega
  | [b1, b2], h => by
    have hb1 : b1 < 256 := h b1 (by simp)
    have hb2 : b2 < 256 := h b2 (by simp)
    have e1 := sextetVal?_sextetChar (b1 / 4) (by omega)
    have e2 := sextetVal?_sextetChar (b1 % 4 * 16 + b2 / 16) (by omega)
    have e3 := sextetVal?_sextetChar (b2 % 16 * 4) (by omega)
    have hne1 : ¬(sextetChar (b2 % 16 * 4) = '=' ∧ True ∧ True) :=
      fun hc => sextetChar_ne_pad (b2 % 16 * 4) (by omega) hc.1
    have hcond : True ∧ True := ⟨trivial, trivial⟩
    simp only [b64EncodeBytes, b64DecodeGroups]
    rw [if_neg hne1, if_pos hcond]
    simp only [e1, e2, e3, Option.some.injEq, List.cons.injEq, and_true]
    omega
  | b1 :: b2 :: b3 :: rest, h => by
    have hb1 : b1 < 256 := h b1 (by simp)
    have hb2 : b2 < 256 := h b2 (by simp)
    have hb3 : b3 < 256 := h b3 (by simp)
    have e1 := sextetVal?_sextetChar (b1 / 4) (by omega)
    have e2 := sextetVal?_sextetChar (b1 % 4 * 16 + b2 / 16) (by omega)
    have e3 := sextetVal?_sextetChar (b2 % 16 * 4 + b3 / 64) (by omega)
    have e4 := sextetVal?_sextetChar (b3 % 64) (by omega)
    have ih := b64Decode_b64Encode rest (fun x hx => h x (by simp [hx]))
    have hne1 : ¬(sextetChar (b2 % 16 * 4 + b3 / 64) = '=' ∧
        sextetChar (b3 % 64) = '=' ∧ b64EncodeBytes rest = []) :=
      fun hc => sextetChar_ne_pad (b2 % 16 * 4 + b3 / 64) (by omega) hc.1
    have hne2 : ¬(sextetChar (b3 % 64) = '=' ∧ b64EncodeBytes rest = []) :=
      fun hc => sextetChar_ne_pad (b3 % 64) (by omega) hc.1
    simp only [b64EncodeBytes, b64DecodeGroups]
    rw [if_neg hne1, if_neg hne2]
    simp only [e1, e2, e3, e4, ih, Option.some.injEq, List.cons.injEq, and_true]
    omega

theorem base64BinaryRule_roundtrip (v : PyValue) (h : bytesWellFormed v = true) :
    base64BinaryParse (base64BinarySerialize v) = some v := by
  cases v
  case bytes bs =>
    simp only [bytesWellFormed, List.all_eq_true, decide_eq_true_eq] at h
    simp only [base64BinarySerialize, base64BinaryParse, b64Decode_b64Encode bs h,
      Option.map_some']
  all_goals simp [bytesWellFormed] at h

theorem dropLast3_append (l : List Char) :
    (((l ++ ['>', '>', '>']).dropLast).dropLast).dropLast = l := by
  have h3 : l ++ ['>', '>', '>'] = ((l ++ ['>']) ++ ['>']) ++ ['>'] := by simp
  rw [h3, List.dropLast_concat, List.dropLast_concat, List.dropLast_concat]

theorem aRule_roundtrip (v : PyValue) (h : aWellFormed v = true) :
    aParse (aSerialize v) = some v := by
  cases v
  case objA s =>
    obtain ⟨l⟩ := s
    have h1 : pySlice3m3 (aSerialize (.objA ⟨l⟩)) = ⟨l⟩ := by
      show (⟨(((l ++ ['>', '>', '>']).dropLast).dropLast).dropLast⟩ : String) =
        (⟨l⟩ : String)
      rw [dropLast3_append]
    simp only [aParse, h1]
  all_goals simp [aWellFormed] at h

/-! ## Claims about the term model -/

/-- C1: for every Literal constructed from a lexical form (string or
bytes) and a datatype IRI that has a registered coercion rule, exactly one
of the two states holds after construction: `ill_formed = false` with a
present value, or `ill_formed = true` with an absent value; and the
construction never raises, regardless of the lexical content. -/
theorem literal_lexical_wellformedness_dichotomy
    (registry : List (String × Rule)) (lex : PyLex) (dt : String) (rule : Rule)
    (hreg : assocLookup registry dt = some rule) :
    ∃ lit : Literal, Literal.new registry lex none (some dt) = .ok lit ∧
      ((lit.ill_formed = some false ∧ lit.value ≠ none ∧
          ¬(lit.ill_formed = some true ∧ lit.value = none)) ∨
        (lit.ill_formed = some true ∧ lit.value = none ∧
          ¬(lit.ill_formed = some false ∧ lit.value ≠ none))) := by
  cases hp : rule.parse lex.decode with
  | some v =>
    refine ⟨{ lexical := lex.decode, datatype := some dt, language := none,
              value := some v, ill_formed := some false }, ?_,
            Or.inl ⟨rfl, by simp, by simp⟩⟩
    simp only [Literal.new, hreg, hp]
  | none =>
    refine ⟨{ lexical := lex.decode, datatype := some dt, language := none,
              value := none, ill_formed := some true }, ?_,
            Or.inr ⟨rfl, rfl, by simp⟩⟩
    simp only [Literal.new, hreg, hp]

/-- C1 witness: the ill-formed lexical form `"yes"` for `xsd:boolean`. -/
theorem literal_lexical_wellformedness_dichotomy_witness :
    assocLookup builtinRules (xsd "boolean") = some boolRule ∧
      (∃ lit : Literal,
        Literal.new builtinRules (.str "yes") none (some (xsd "boolean")) = .ok lit ∧
        ((lit.ill_formed = some false ∧ lit.value ≠ none ∧
            ¬(lit.ill_formed = some true ∧ lit.value = none)) ∨
          (lit.ill_formed = some true ∧ lit.value = none ∧
            ¬(lit.ill_formed = some false ∧ lit.value ≠ none)))) :=
  ⟨rfl, literal_lexical_wellformedness_dichotomy builtinRules (.str "yes")
    (xsd "boolean") boolRule rfl⟩

set_option maxHeartbeats 1000000 in
/-- C2 counterexample: the claim fails as stated on the registry of the
cited tests. The `urn:dt:b` rule registered by `testBinding` does not
round-trip: its serializer goes through `str(b)`, which prepends the
class marker `B` that its parser then keeps in the value, so parsing the
serialization of the test's own value `b("<<<3>>>")` (state `v = "3"`)
yields the different value with state `v = "B3"`. -/
theorem registered_rule_roundtrip_counterexample :
    assocLookup boundRules "urn:dt:b" = some bRule ∧
    bRule.wellFormed (.objB "3") = true ∧
    bRule.parse (bRule.serialize (.objB "3")) = some (.objB "B3") ∧
    some (PyValue.objB "B3") ≠ some (PyValue.objB "3") :=
  ⟨rfl, rfl, rfl, by decide⟩

set_option maxHeartbeats 1000000 in
/-- C2 (amended): for every datatype with a registered coercion rule —
the built-in startup rules for the boolean, bounded- and
unbounded-integer, string, double, decimal, date, time, dateTime,
hexBinary and base64Binary types, together with the bindings of the cited
tests — other than the non-round-tripping `urn:dt:b` binding, and for
every native value the rule considers well-formed, parsing the
serialization of the value yields the value back. -/
theorem registered_rule_roundtrip_amended (dt : String) (rule : Rule) (v : PyValue)
    (hreg : assocLookup boundRules dt = some rule) (hdt : dt ≠ "urn:dt:b")
    (hwf : rule.wellFormed v = true) :
    rule.parse (rule.serialize v) = some v := by
  have hmem := assocLookup_mem boundRules dt rule hreg
  have hb : boundRules =
      [ (xsd "boolean", boolRule)
      , (xsd "byte", intRule (some (-128)) (some 127))
      , (xsd "unsignedByte", intRule (some 0) (some 255))
      , (xsd "short", intRule (some (-32768)) (some 32767))
      , (xsd "int", intRule (some (-2147483648)) (some 2147483647))
      , (xsd "nonNegativeInteger", intRule (some 0) none)
      , (xsd "integer", intRule none none)
      , (xsd "string", strRule)
      , (xsd "double", doubleRule)
      , (xsd "decimal", decimalRule)
      , (xsd "date", dateRule)
      , (xsd "time", timeRule)
      , (xsd "dateTime", dateTimeRule)
      , (xsd "hexBinary", hexBinaryRule)
      , (xsd "base64Binary", base64BinaryRule)
      , ("urn:dt:a", aRule)
      , ("urn:dt:b", bRule)
      , ("urn:dt:mystring", mystringRule) ] := rfl
  rw [hb] at hmem
  simp only [List.mem_cons, List.not_mem_nil, or_false, Prod.mk.injEq] at hmem
  obtain ⟨rfl, rfl⟩ | hmem := hmem
  · exact boolRule_roundtrip v hwf
  obtain ⟨rfl, rfl⟩ | hmem := hmem
  · exact intRule_roundtrip (some (-128)) (some 127) v hwf
  obtain ⟨rfl, rfl⟩ | hmem := hmem
  · exact intRule_roundtrip (some 0) (some 255) v hwf
  obtain ⟨rfl, rfl⟩ | hmem := hmem
  · exact intRule_roundtrip (some (-32768)) (some 32767) v hwf
  obtain ⟨rfl, rfl⟩ | hmem := hmem
  · exact intRule_roundtrip (some (-2147483648)) (some 2147483647) v hwf
  obtain ⟨rfl, rfl⟩ | hmem := hmem
  · exact intRule_roundtrip (some 0) none v hwf
  obtain ⟨rfl, rfl⟩ | hmem := hmem
  · exact intRule_roundtrip none none v hwf
  obtain ⟨rfl, rfl⟩ | hmem := hmem
  · exact strRule_roundtrip v hwf
  obtain ⟨rfl, rfl⟩ | hmem := hmem
  · exact doubleRule_roundtrip v hwf
  obtain ⟨rfl, rfl⟩ | hmem := hmem
  · exact decimalRule_roundtrip v hwf
  obtain ⟨rfl, rfl⟩ | hmem := hmem
  · exact dateRule_roundtrip v hwf
  obtain ⟨rfl, rfl⟩ | hmem := hmem
  · exact timeRule_roundtrip v hwf
  obtain ⟨rfl, rfl⟩ | hmem := hmem
  · exact dateTimeRule_roundtrip v hwf
  obtain ⟨rfl, rfl⟩ | hmem := hmem
  · exact hexBinaryRule_roundtrip v hwf
  obtain ⟨rfl, rfl⟩ | hmem := hmem
  · exact base64BinaryRule_roundtrip v hwf
  obtain ⟨rfl, rfl⟩ | hmem := hmem
  · exact aRule_roundtrip v hwf
  obtain ⟨rfl, rfl⟩ | hmem := hmem
  · exact absurd rfl hdt
  obtain ⟨rfl, rfl⟩ := hmem
  exact mystringRule_roundtrip v hwf

set_option maxHeartbeats 1000000 in
/-- C2 witness: the amended round trip applied at the `xsd:byte` rule on
the value 127 and at the `xsd:hexBinary` rule on the two-byte value
`[114, 100]`. -/
theorem registered_rule_roundtrip_amended_witness :
    (assocLookup boundRules (xsd "byte") = some (intRule (some (-128)) (some 127)) ∧
      xsd "byte" ≠ "urn:dt:b" ∧
      (intRule (some (-128)) (some 127)).wellFormed (.int 127) = true ∧
      (intRule (some (-128)) (some 127)).parse
        ((intRule (some (-128)) (some 127)).serialize (.int 127)) =
          some (.int 127)) ∧
    (assocLookup boundRules (xsd "hexBinary") = some hexBinaryRule ∧
      xsd "hexBinary" ≠ "urn:dt:b" ∧
      hexBinaryRule.wellFormed (.bytes [114, 100]) = true ∧
      hexBinaryRule.parse (hexBinaryRule.serialize (.bytes [114, 100])) =
        some (.bytes [114, 100])) :=
  ⟨⟨rfl, by decide, by decide,
      registered_rule_roundtrip_amended (xsd "byte")
        (intRule (some (-128)) (some 127)) (.int 127) rfl (by decide) (by decide)⟩,
    ⟨rfl, by decide, by decide,
      registered_rule_roundtrip_amended (xsd "hexBinary") hexBinaryRule
        (.bytes [114, 100]) rfl (by decide) (by decide)⟩⟩

/-- C4: `Literal("200", datatype=xsd:byte)` is ill-formed (out of the byte
range) with an absent value; `Literal("127", datatype=xsd:byte)` is
well-formed with value 127. -/
theorem byte_literal_examples :
    Literal.new builtinRules (.str "200") none (some (xsd "byte")) =
      .ok { lexical := "200", datatype := some (xsd "byte"), language := none,
            value := none, ill_formed := some true } ∧
    Literal.new builtinRules (.str "127") none (some (xsd "byte")) =
      .ok { lexical := "127", datatype := some (xsd "byte"), language := none,
            value := some (.int 127), ill_formed := some false } :=
  ⟨rfl, rfl⟩

/-- C5: constructing a Literal with a datatype IRI for which no coercion
rule is registered leaves `ill_formed` indeterminate (absent, neither true
nor false) and the value absent. -/
theorem unregistered_datatype_indeterminate
    (registry : List (String × Rule)) (lex : PyLex) (dt : String)
    (hreg : assocLookup registry dt = none) :
    ∃ lit : Literal, Literal.new registry lex none (some dt) = .ok lit ∧
      lit.ill_formed = none ∧ lit.value = none := by
  refine ⟨{ lexical := lex.decode, datatype := some dt, language := none,
            value := none, ill_formed := none }, ?_, rfl, rfl⟩
  simp only [Literal.new, hreg]

/-- C5 witness: the language-string datatype and an unrecognized IRI, for
neither of which the built-in registry has a rule. -/
theorem unregistered_datatype_indeterminate_witness :
    (assocLookup builtinRules rdfLangString = none ∧
      ∃ lit : Literal,
        Literal.new builtinRules (.str "English string") none (some rdfLangString) =
          .ok lit ∧ lit.ill_formed = none ∧ lit.value = none) ∧
    (assocLookup builtinRules "http://example.com/unrecognized" = none ∧
      ∃ lit : Literal,
        Literal.new builtinRules (.str "[p]") none
            (some "http://example.com/unrecognized") =
          .ok lit ∧ lit.ill_formed = none ∧ lit.value = none) :=
  ⟨⟨rfl, unregistered_datatype_indeterminate builtinRules (.str "English string")
      rdfLangString rfl⟩,
    ⟨rfl, unregistered_datatype_indeterminate builtinRules (.str "[p]")
      "http://example.com/unrecognized" rfl⟩⟩

/-- C6: constructing a Literal with both a (valid) language tag and an
explicit datatype other than the language-string datatype is rejected with
a `TypeError` rather than producing a literal carrying both. -/
theorem lang_and_datatype_mutually_exclusive
    (registry : List (String × Rule)) (lex : PyLex) (t dt : String)
    (hvalid : isValidLangTag t = true) (hdt : dt ≠ rdfLangString) :
    Literal.new registry lex (some (.str t)) (some dt) = .error .typeError := by
  simp only [Literal.new]
  rw [if_pos hvalid, if_neg hdt]

/-- C6 witness: `Literal("foo", lang="en", datatype=http://example.com/)`. -/
theorem lang_and_datatype_mutually_exclusive_witness :
    isValidLangTag "en" = true ∧ "http://example.com/" ≠ rdfLangString ∧
      Literal.new builtinRules (.str "foo") (some (.str "en"))
          (some "http://example.com/") =
        .error .typeError :=
  ⟨by decide, by decide,
    lang_and_datatype_mutually_exclusive builtinRules (.str "foo") "en"
      "http://example.com/" (by decide) (by decide)⟩

/-- C7: constructing a Literal with a language tag that is not a string
(dict, list, int, bytes) raises a `TypeError`, and with a string tag that
violates the strict tag grammar raises a `ValueError`; no literal is
produced. -/
theorem invalid_lang_rejected
    (registry : List (String × Rule)) (lex : PyLex) (datatype : Option String) :
    (∀ o : PyObj, (∀ s, o ≠ PyObj.str s) →
      Literal.new registry lex (some o) datatype = .error .typeError) ∧
    (∀ t : String, isValidLangTag t = false →
      Literal.new registry lex (some (.str t)) datatype = .error .valueError) := by
  constructor
  · intro o ho
    cases o with
    | str s => exact absurd rfl (ho s)
    | dict => rfl
    | list => rfl
    | int n => rfl
    | bytes s => rfl
  · intro t ht
    simp only [Literal.new]
    rw [if_neg (by simp [ht])]

/-- C7 witness: the non-string tags `{}` and `b"en"`, and the grammar
violations `"999"` and `"-"`. -/
theorem invalid_lang_rejected_witness :
    Literal.new builtinRules (.str "foo") (some .dict) none = .error .typeError ∧
    Literal.new builtinRules (.str "foo") (some (.bytes "en")) none =
      .error .typeError ∧
    Literal.new builtinRules (.str "foo") (some (.str "999")) none =
      .error .valueError ∧
    Literal.new builtinRules (.str "foo") (some (.str "-")) none =
      .error .valueError :=
  ⟨(invalid_lang_rejected builtinRules (.str "foo") none).1 .dict
      (fun s h => PyObj.noConfusion h),
    (invalid_lang_rejected builtinRules (.str "foo") none).1 (.bytes "en")
      (fun s h => PyObj.noConfusion h),
    (invalid_lang_rejected builtinRules (.str "foo") none).2 "999" (by decide),
    (invalid_lang_rejected builtinRules (.str "foo") none).2 "-" (by decide)⟩

/-- C9: the boolean coercion is case-insensitive and accepts numeric
forms: any casing of `true` and the form `1` coerce to `True`, any casing
of `false` and the form `0` coerce to `False`, and any other lexical form
yields a literal whose value is falsy without the construction raising. -/
theorem boolean_parse_case_insensitive :
    (∀ s : String, (strLower s = "true" ∨ strLower s = "1") →
      Literal.new builtinRules (.str s) none (some (xsd "boolean")) =
        .ok { lexical := s, datatype := some (xsd "boolean"), language := none,
              value := some (.bool true), ill_formed := some false }) ∧
    (∀ s : String, (strLower s = "false" ∨ strLower s = "0") →
      Literal.new builtinRules (.str s) none (some (xsd "boolean")) =
        .ok { lexical := s, datatype := some (xsd "boolean"), language := none,
              value := some (.bool false), ill_formed := some false }) ∧
    (∀ s : String, strLower s ≠ "true" → strLower s ≠ "1" →
      strLower s ≠ "false" → strLower s ≠ "0" →
      ∃ lit : Literal,
        Literal.new builtinRules (.str s) none (some (xsd "boolean")) = .ok lit ∧
          pyTruthy lit.value = false) := by
  have hreg : assocLookup builtinRules (xsd "boolean") = some boolRule := rfl
  refine ⟨?_, ?_, ?_⟩
  · intro s h
    have hp : boolParse s = some (.bool true) := by
      simp only [boolParse]
      rw [if_pos h.symm]
    simp only [Literal.new, hreg, PyLex.decode, boolRule, hp]
  · intro s h
    have hp : boolParse s = some (.bool false) := by
      have hne : ¬(strLower s = "1" ∨ strLower s = "true") := by
        rintro (h1 | h1) <;> rcases h with h2 | h2 <;> simp_all
      simp only [boolParse]
      rw [if_neg hne, if_pos h.symm]
    simp only [Literal.new, hreg, PyLex.decode, boolRule, hp]
  · intro s h1 h2 h3 h4
    have hp : boolParse s = none := by
      have ha : ¬(strLower s = "1" ∨ strLower s = "true") := by
        rintro (h | h)
        exacts [h2 h, h1 h]
      have hb : ¬(strLower s = "0" ∨ strLower s = "false") := by
        rintro (h | h)
        exacts [h4 h, h3 h]
      simp only [boolParse]
      rw [if_neg ha, if_neg hb]
    refine ⟨{ lexical := s, datatype := some (xsd "boolean"), language := none,
              value := none, ill_formed := some true }, ?_, rfl⟩
    simp only [Literal.new, hreg, PyLex.decode, boolRule, hp]

/-- C9 witness: `tRue`, `1`, `falsE`, `0`, and the unrecognized forms
`abcd` and `10`. -/
theorem boolean_parse_case_insensitive_witness :
    Literal.new builtinRules (.str "tRue") none (some (xsd "boolean")) =
      .ok { lexical := "tRue", datatype := some (xsd "boolean"), language := none,
            value := some (.bool true), ill_formed := some false } ∧
    Literal.new builtinRules (.str "1") none (some (xsd "boolean")) =
      .ok { lexical := "1", datatype := some (xsd "boolean"), language := none,
            value := some (.bool true), ill_formed := some false } ∧
    Literal.new builtinRules (.str "falsE") none (some (xsd "boolean")) =
      .ok { lexical := "falsE", datatype := some (xsd "boolean"), language := none,
            value := some (.bool false), ill_formed := some false } ∧
    Literal.new builtinRules (.str "0") none (some (xsd "boolean")) =
      .ok { lexical := "0", datatype := some (xsd "boolean"), language := none,
            value := some (.bool false), ill_formed := some false } ∧
    (∃ lit : Literal,
      Literal.new builtinRules (.str "abcd") none (some (xsd "boolean")) =
        .ok lit ∧ pyTruthy lit.value = false) ∧
    (∃ lit : Literal,
      Literal.new builtinRules (.str "10") none (some (xsd "boolean")) =
        .ok lit ∧ pyTruthy lit.value = false) :=
  ⟨boolean_parse_case_insensitive.1 "tRue" (Or.inl (by decide)),
    boolean_parse_case_insensitive.1 "1" (Or.inr (by decide)),
    boolean_parse_case_insensitive.2.1 "falsE" (Or.inl (by decide)),
    boolean_parse_case_insensitive.2.1 "0" (Or.inr (by decide)),
    boolean_parse_case_insensitive.2.2 "abcd"
      (by decide) (by decide) (by decide) (by decide),
    boolean_parse_case_insensitive.2.2 "10"
      (by decide) (by decide) (by decide) (by decide)⟩

/-- C10: constructing a Literal from a native boolean with no explicit
datatype assigns the `xsd:boolean` datatype. -/
theorem literal_from_bool_datatype :
    (Literal.fromValue builtinRules (.bool true) none).datatype =
      some (xsd "boolean") ∧
    (Literal.fromValue builtinRules (.bool false) none).datatype =
      some (xsd "boolean") :=
  ⟨rfl, rfl⟩

end Rdf

namespace Sparql

/-- `SPARQL_LOAD_GRAPHS` of `rdflib/plugins/sparql/__init__.py`: if true,
using `FROM <uri>` and `FROM NAMED <uri>` will load/parse more data. -/
def SPARQL_LOAD_GRAPHS : Bool := true

/-- `SPARQL_DEFAULT_GRAPH_UNION` of `rdflib/plugins/sparql/__init__.py`:
if true, the default graph of the RDF Dataset is the union of all named
graphs. -/
def SPARQL_DEFAULT_GRAPH_UNION : Bool := true

/-- `PLUGIN_ENTRY_POINT` of `rdflib/plugins/sparql/__init__.py`: the fixed
discovery group identifier under which custom evaluation functions are
discovered at process startup. -/
def PLUGIN_ENTRY_POINT : String := "rdf.plugins.sparqleval"

/-- A custom evaluation function of `CUSTOM_EVALS`: takes `(ctx, part)`
and returns a result, or `none` — the model of raising
`NotImplementedError` — when it cannot handle the part. -/
abbrev Handler (Ctx Node Res : Type) : Type := Ctx → Node → Option Res

/-- Modelled from the spec: the custom-evaluation loop of `evalPart` in
the missing `rdflib/plugins/sparql/evaluate.py`: each function of the
`CUSTOM_EVALS` registry is tried in registration order with
`(ctx, part)`; the first result produced is kept, and a handler that
signals "not handled" falls through to the next. -/
def tryCustomEvals {Ctx Node Res : Type} :
    List (String × Handler Ctx Node Res) → Ctx → Node → Option Res
  | [], _, _ => none
  | (_, h) :: rest, ctx, node =>
    match h ctx node with
    | some r => some r
    | none => tryCustomEvals rest ctx node

/-- Modelled from the spec: `evalPart` dispatch — custom handlers first in
registration order, the builtin implementation when every handler
declined. -/
def evalPart {Ctx Node Res : Type} (evals : List (String × Handler Ctx Node Res))
    (builtin : Ctx → Node → Res) (ctx : Ctx) (node : Node) : Res :=
  match tryCustomEvals evals ctx node with
  | some r => r
  | none => builtin ctx node

/-- The last value declared under a name in an entry-point listing (later
assignments to a dict key win). -/
def lastAssoc {α : Type _} : List (String × α) → String → Option α
  | [], _ => none
  | (k, v) :: rest, n =>
    match lastAssoc rest n with
    | some w => some w
    | none => if k = n then some v else none

/-- The entry-point discovery loop of `rdflib/plugins/sparql/__init__.py`:
each plugin discovered under the `PLUGIN_ENTRY_POINT` group is registered
in the `CUSTOM_EVALS` dict under its declared name
(`CUSTOM_EVALS[ep.name] = ep.load()`). -/
def registerEntryPoints {α : Type _} (eps : List (String × α))
    (d : List (String × α)) : List (String × α) :=
  eps.foldl (fun acc p => Rdf.assocInsert acc p.1 p.2) d

theorem registerEntryPoints_lookup {α : Type _} (eps : List (String × α))
    (d : List (String × α)) (n : String) :
    Rdf.assocLookup (registerEntryPoints eps d) n =
      match lastAssoc eps n with
      | some w => some w
      | none => Rdf.assocLookup d n := by
  induction eps generalizing d with
  | nil => rfl
  | cons p rest ih =>
    obtain ⟨k, v⟩ := p
    show Rdf.assocLookup (registerEntryPoints rest (Rdf.assocInsert d k v)) n = _
    rw [ih (Rdf.assocInsert d k v)]
    simp only [lastAssoc, Rdf.assocLookup_assocInsert]
    cases hl : lastAssoc rest n with
    | some w => rfl
    | none => by_cases hk : k = n <;> simp [hk]

theorem tryCustomEvals_append {Ctx Node Res : Type}
    (pre rest : List (String × Handler Ctx Node Res)) (ctx : Ctx) (node : Node)
    (hpre : ∀ p ∈ pre, p.2 ctx node = none) :
    tryCustomEvals (pre ++ rest) ctx node = tryCustomEvals rest ctx node := by
  induction pre with
  | nil => rfl
  | cons p ps ih =>
    obtain ⟨nm, h⟩ := p
    have hh : h ctx node = none := hpre (nm, h) (by simp)
    simp only [List.cons_append, tryCustomEvals, hh]
    exact ih (fun q hq => hpre q (by simp [hq]))

theorem tryCustomEvals_none {Ctx Node Res : Type}
    (evals : List (String × Handler Ctx Node Res)) (ctx : Ctx) (node : Node)
    (hall : ∀ p ∈ evals, p.2 ctx node = none) :
    tryCustomEvals evals ctx node = none := by
  induction evals with
  | nil => rfl
  | cons p ps ih =>
    obtain ⟨nm, h⟩ := p
    have hh : h ctx node = none := hall (nm, h) (by simp)
    simp only [tryCustomEvals, hh]
    exact ih (fun q hq => hall q (by simp [hq]))

/-- C3: for every evaluated algebra node, registered handlers are invoked
in registration order with `(context, node)` before the builtin
implementation: the first handler that returns a result short-circuits the
remaining handlers and the builtin logic and its result is used verbatim;
a handler signalling "not handled" causes the next candidate to be tried,
ending with the builtin implementation; and handlers discovered at process
startup are registered under the plugin's declared name, keyed by the
fixed discovery group identifier. -/
theorem custom_eval_dispatch_and_discovery :
    (∀ (Ctx Node Res : Type) (pre post : List (String × Handler Ctx Node Res))
        (nm : String) (h : Handler Ctx Node Res) (builtin : Ctx → Node → Res)
        (ctx : Ctx) (node : Node) (r : Res),
        (∀ p ∈ pre, p.2 ctx node = none) → h ctx node = some r →
        evalPart (pre ++ (nm, h) :: post) builtin ctx node = r) ∧
    (∀ (Ctx Node Res : Type) (evals : List (String × Handler Ctx Node Res))
        (builtin : Ctx → Node → Res) (ctx : Ctx) (node : Node),
        (∀ p ∈ evals, p.2 ctx node = none) →
        evalPart evals builtin ctx node = builtin ctx node) ∧
    (∀ (α : Type) (eps : List (String × α)) (n : String),
        Rdf.assocLookup (registerEntryPoints eps []) n = lastAssoc eps n) ∧
    PLUGIN_ENTRY_POINT = "rdf.plugins.sparqleval" := by
  refine ⟨?_, ?_, ?_, rfl⟩
  · intro Ctx Node Res pre post nm h builtin ctx node r hpre hr
    simp only [evalPart, tryCustomEvals_append pre _ ctx node hpre,
      tryCustomEvals, hr]
  · intro Ctx Node Res evals builtin ctx node hall
    simp only [evalPart, tryCustomEvals_none evals ctx node hall]
  · intro α eps n
    rw [registerEntryPoints_lookup eps [] n]
    cases lastAssoc eps n with
    | some w => rfl
    | none => rfl

/-- C3 witness: a three-handler registry where the first declines and the
second answers, bypassing the third and the builtin; an all-declining
registry falling through to the builtin; and a discovery listing with a
re-declared name, registered under the declared names with the later
declaration winning. -/
theorem custom_eval_dispatch_and_discovery_witness :
    evalPart
        ([("a", fun _ _ => none), ("b", fun _ _ => some 7),
          ("c", fun _ _ => some 8)] : List (String × Handler Nat Nat Nat))
        (fun _ _ => 0) 0 0 = 7 ∧
    evalPart ([("a", fun _ _ => none)] : List (String × Handler Nat Nat Nat))
        (fun _ _ => 3) 0 0 = 3 ∧
    Rdf.assocLookup (registerEntryPoints [("p", 1), ("q", 2), ("p", 3)] []) "p" =
      some 3 :=
  ⟨custom_eval_dispatch_and_discovery.1 Nat Nat Nat
      [("a", fun _ _ => none)] [("c", fun _ _ => some 8)] "b"
      (fun _ _ => some 7) (fun _ _ => 0) 0 0 7
      (by
        intro p hp
        simp only [List.mem_singleton] at hp
        subst hp
        rfl)
      rfl,
    custom_eval_dispatch_and_discovery.2.1 Nat Nat Nat
      [("a", fun _ _ => none)] (fun _ _ => 3) 0 0
      (by
        intro p hp
        simp only [List.mem_singleton] at hp
        subst hp
        rfl),
    (custom_eval_dispatch_and_discovery.2.2.1 Nat [("p", 1), ("q", 2), ("p", 3)]
        "p").trans (by decide)⟩

/-- C8: both process-wide configuration switches default to true. -/
theorem config_defaults_true :
    SPARQL_LOAD_GRAPHS = true ∧ SPARQL_DEFAULT_GRAPH_UNION = true :=
  ⟨rfl, rfl⟩

end Sparql
